import Mathlib

/-!
Verification development for the go-trustedproxy library.

The Go sources are shallowly embedded:
  a Go `net.IP` is a byte slice; it is modelled as `List Nat`, with the
  nil slice modelled as the empty list (the code only ever compares a
  `net.IP` against nil and indexes it, so this is faithful);
  fallible operations return `Option`; Go runtime panics (out-of-range
  slice indexing) are made explicit as a `panics` outcome.
All IPv4 addresses are kept in 4-byte form (the Go `To4` normalization
between the 4- and 16-byte representations is not modelled: every IPv4
value in this development is 4 bytes long).
-/

namespace TrustedProxy

/-- Go net.IP: a byte slice; `[]` models the nil slice. -/
abbrev IP := List Nat

/-! ## Go net: address parsing (stdlib model)

The repository calls `net.ParseIP`, `net.IPNet.Contains` and
`net.ResolveTCPAddr` from the Go standard library; those are embedded
here following the stdlib sources. -/

/-- Go net.dtoi: read a decimal prefix of the string; fails when the first
byte is not a digit. Returns the value and the number of bytes consumed.
Go caps the accumulator at 0xFFFFFF and fails on overflow; the cap is
omitted here because every capped value already exceeds 255 and is
rejected identically by the IPv4 field check below. -/
def dtoi (s : List Char) : Option (Nat × Nat) :=
  let ds := s.takeWhile Char.isDigit
  if ds.isEmpty then none
  else some (ds.foldl (fun n c => n * 10 + (c.toNat - 48)) 0, ds.length)

/-- One dotted-decimal IPv4 field: a decimal number, at most 255, with no
leading zero (Go rejects leading zeros in IPv4 fields). Returns the field
value and the remaining characters. -/
def parseV4Group (s : List Char) : Option (Nat × List Char) :=
  match dtoi s with
  | none => none
  | some (n, c) =>
    if 255 < n then none
    else if 1 < c ∧ s.headD ' ' = '0' then none
    else some (n, s.drop c)

/-- Consume a literal dot. -/
def expectDot : List Char → Option (List Char)
  | '.' :: rest => some rest
  | _ => none

/-- Go net.parseIPv4: four dot-separated decimal fields, nothing left over. -/
def parseIPv4 (s : List Char) : Option IP := do
  let (a, s1) ← parseV4Group s
  let s1 ← expectDot s1
  let (b, s2) ← parseV4Group s1
  let s2 ← expectDot s2
  let (c, s3) ← parseV4Group s2
  let s3 ← expectDot s3
  let (d, s4) ← parseV4Group s3
  if s4.isEmpty then some [a, b, c, d] else none

/-- The first '.' or ':' in the string, which Go net.ParseIP uses to decide
between the IPv4 and IPv6 grammars. -/
def firstSep : List Char → Option Char
  | [] => none
  | c :: rest => if c = '.' ∨ c = ':' then some c else firstSep rest

/-- Go net.ParseIP on the characters of the string: dispatch on the first
separator; '.' selects the IPv4 grammar, nil on failure. The IPv6 grammar
is not modelled (no claim exercises IPv6 inputs), so a string whose first
separator is ':' is modelled as failing to parse, as is a string with no
separator at all (both yield the nil IP, like Go on a non-address). -/
def parseIPCore (s : List Char) : IP :=
  match firstSep s with
  | some '.' => (parseIPv4 s).getD []
  | _ => []

/-- Go net.ParseIP. Note: no whitespace trimming of any kind is performed;
a leading or trailing space makes the parse fail (return nil). -/
def parseIP (s : String) : IP :=
  parseIPCore s.data

/-- Render a 4-byte IP the way Go net.IP.String does for IPv4 values;
the nil IP renders as "<nil>". Other lengths do not occur in this
development. -/
def ipString : IP → String
  | [a, b, c, d] => String.intercalate (".") ([a, b, c, d].map toString)
  | [] => ("<nil>")
  | _ => ("?")

/-! ## Headers

The code reads and writes exactly four header keys: X-Forwarded-For,
X-Forwarded-Host, X-Forwarded-Proto and X-Real-IP. A Go http.Header maps
each key to a list of values; the model keeps those four value lists as
fields (plus an opaque rest, which the code never touches, to express
that cloning copies whole requests). -/
structure Headers where
  xff : List String
  xfh : List String
  xfp : List String
  xrip : List String
  others : List (String × List String)
deriving DecidableEq

/-- Go http.Header.Get: the first value for the key, or "" when absent. -/
def headerGet (vs : List String) : String :=
  vs.headD ("")

def emptyHeaders : Headers :=
  { xff := [], xfh := [], xfp := [], xrip := [], others := [] }

/-- Go strings.Split with separator ",": never empty, no separator
consumed into the fragments. -/
def splitComma : List Char → List (List Char)
  | [] => [[]]
  | ',' :: rest => [] :: splitComma rest
  | c :: rest =>
    match splitComma rest with
    | [] => [[c]]
    | g :: gs => (c :: g) :: gs

/-- ExtractForwardedForIPs (src/trustedproxy.go): for each value of the
X-Forwarded-For header, split on commas and parse each raw token with
net.ParseIP, silently dropping tokens that fail to parse. No trimming is
applied to the tokens. -/
def ExtractForwardedForIPs (h : Headers) : List IP :=
  (h.xff.map (fun header =>
    (splitComma header.data).filterMap (fun val =>
      if parseIPCore val = [] then none else some (parseIPCore val)))).flatten

/-- Go strings.TrimSpace restricted to ASCII whitespace (sufficient for
header tokens): drop leading and trailing whitespace characters. -/
def trimSpace (s : List Char) : List Char :=
  ((s.dropWhile Char.isWhitespace).reverse.dropWhile Char.isWhitespace).reverse

/-- Modelled from the spec: the extractor as section 4.1 describes it,
with each comma-separated token trimmed before parsing. The trimming is
what the source's ExtractForwardedForIPs lacks. -/
def specExtractForwardedForIPs (h : Headers) : List IP :=
  (h.xff.map (fun header =>
    (splitComma header.data).filterMap (fun val =>
      if parseIPCore (trimSpace val) = [] then none
      else some (parseIPCore (trimSpace val))))).flatten

/-! ## Trust resolvers (src/extractor.go) -/

/-- The outcome of an IPExtractor.Resolve call: the Go signature returns
(proxy, remote, forwarded, error); a reachable out-of-range slice index
is modelled explicitly as a panic outcome. -/
inductive ResolveOutcome
  | ok (proxy remote : IP) (forwarded : List IP)
  | err (msg : String)
  | panics (msg : String)
deriving DecidableEq

/-- Go net.IPNet: network number and mask, both 4-byte here. -/
structure IPNet where
  ip : IP
  mask : IP
deriving DecidableEq

/-- Go net.IPNet.Contains for addresses and networks already in 4-byte
form: lengths must agree and the address must match the network number
under the mask. (The Go To4 normalization of 16-byte IPv4 forms is not
modelled; all IPv4 values here are 4-byte.) -/
def IPNet.Contains (n : IPNet) (x : IP) : Bool :=
  x.length == n.ip.length &&
  (List.range x.length).all (fun i =>
    (n.ip.getD i 0 &&& n.mask.getD i 0) == (x.getD i 0 &&& n.mask.getD i 0))

/-- CIDRWhitelist (src/extractor.go). -/
structure CIDRWhitelist where
  whitelist : List IPNet

/-- CIDRWhitelist.Contains: true iff some whitelisted prefix contains the
address. -/
def CIDRWhitelist.Contains (c : CIDRWhitelist) (x : IP) : Bool :=
  c.whitelist.any (fun cidr => cidr.Contains x)

/-- pop (src/extractor.go): last element of the slice (nil when empty)
and the slice without it. -/
def pop (s : List IP) : IP × List IP :=
  match s.getLast? with
  | none => ([], s)
  | some x => (x, s.dropLast)

/-- The loop body of CIDRWhitelist.Resolve. The Go loop runs while the
chain is non-empty, breaking as soon as the candidate is not whitelisted;
each iteration removes one chain entry, so the chain's length is enough
fuel to run the loop to completion (the fuel argument is termination
bookkeeping only). -/
def CIDRWhitelist.resolveLoop (c : CIDRWhitelist) :
    Nat → IP → IP → List IP → IP × IP × List IP
  | 0, proxy, remote, forwarded => (proxy, remote, forwarded)
  | fuel + 1, proxy, remote, forwarded =>
    if forwarded.length > 0 then
      if !c.Contains remote then (proxy, remote, forwarded)
      else
        let (r2, f2) := pop forwarded
        c.resolveLoop fuel remote r2 f2
    else (proxy, remote, forwarded)

/-- CIDRWhitelist.Resolve (src/extractor.go): walk the chain from its
right end while the candidate is whitelisted; never returns an error. -/
def CIDRWhitelist.Resolve (c : CIDRWhitelist) (remote : IP)
    (forwarded : List IP) : ResolveOutcome :=
  match c.resolveLoop forwarded.length [] remote forwarded with
  | (p, r, rest) => .ok p r rest

/-- Go slice indexing with an int index: out of range is a runtime panic,
modelled as none. -/
def goIndex (l : List IP) (i : Int) : Option IP :=
  if h : 0 ≤ i ∧ i < (l.length : Int) then
    some (l.get ⟨i.toNat, by omega⟩)
  else none

/-- OffsetIPExtractor.Resolve (src/extractor.go). The combined chain is
forwarded ++ [remote]; the guard only rejects size ≤ o, so for
size = o + 1 the index size-o-2 = -1 is evaluated and the Go program
panics with an index-out-of-range runtime error, modelled explicitly. -/
def OffsetIPExtractor.Resolve (o : Nat) (remote : IP)
    (forwarded : List IP) : ResolveOutcome :=
  let ips := forwarded ++ [remote]
  let size : Int := ips.length
  if size ≤ (o : Int) then .err ("mis-configured proxy chain")
  else
    match goIndex ips (size - o - 1), goIndex ips (size - o - 2) with
    | some proxy, some r => .ok proxy r (ips.take (size - o - 2).toNat)
    | _, _ => .panics ("runtime error: index out of range")

/-! ## Middleware entry points -/

/-- The two error kinds of src/unnamed/part_001. -/
inductive ErrorType
  | unknownRemoteAddr
  | ipExtractorError
deriving DecidableEq

/-- What a middleware entry point does with one request: report an error
(the next handler never runs), hit a runtime panic, or run the next
handler, recording which remote address was handed to the resolver and
the partition stored on the forwarded request. -/
inductive EntryOutcome
  | reported (t : ErrorType)
  | panicked (msg : String)
  | nextRan (remotePassed : IP) (proxy trusted : IP) (rest : List IP)
deriving DecidableEq

/-- Split a host:port string at its last colon (the host may itself
contain colons only in the bracketed IPv6 form, which is not modelled). -/
def lastColonSplit : List Char → Option (List Char × List Char)
  | [] => none
  | c :: rest =>
    match lastColonSplit rest with
    | some (h, p) => some (c :: h, p)
    | none => if c = ':' then some ([], rest) else none

/-- Go net.ResolveTCPAddr("tcp", addr) for literal host:port strings:
split at the last colon and require an all-digit non-empty port. An
empty host succeeds with the nil IP, exactly as Go does (":8080"
resolves to a TCPAddr whose IP field is nil, with no error); a
non-empty host must parse as an IP. DNS host names, service-name ports
and bracketed IPv6 hosts are not modelled and are treated as resolution
failures. -/
def resolveTCPAddr (addr : String) : Option IP :=
  match lastColonSplit addr.data with
  | none => none
  | some (h, p) =>
    if p ≠ [] ∧ p.all Char.isDigit then
      if h = [] then some []
      else if parseIPCore h = [] then none else some (parseIPCore h)
    else none

/-- HTTPHandler.SetTrustedProxyContext (src/http.go): extract the chain,
resolve the socket peer with net.ResolveTCPAddr (reporting
ErrTypeUnknownRemoteAddr on failure, before the next handler can run),
run the extractor (reporting ErrTypeIPExtractorError on failure), then
run the next handler with the partition attached. The resolver is passed
as a function, modelling the IPExtractor interface value. -/
def SetTrustedProxyContext (resolve : IP → List IP → ResolveOutcome)
    (remoteAddr : String) (hdr : Headers) : EntryOutcome :=
  let ips := ExtractForwardedForIPs hdr
  match resolveTCPAddr remoteAddr with
  | none => .reported .unknownRemoteAddr
  | some raddr =>
    match resolve raddr ips with
    | .err _ => .reported .ipExtractorError
    | .panics m => .panicked m
    | .ok p r rest => .nextRan raddr p r rest

/-- WithTrustedProxyContext (src/trustedproxy.go): this entry point feeds
net.ParseIP(r.RemoteAddr) straight to the resolver — a host:port string
never parses as an IP, so the resolver receives the nil IP and no error
is reported. A resolver error is written out with http.Error (modelled
with the ipExtractorError tag, matching the default handler's effect). -/
def WithTrustedProxyContext (resolve : IP → List IP → ResolveOutcome)
    (remoteAddr : String) (hdr : Headers) : EntryOutcome :=
  let ips := ExtractForwardedForIPs hdr
  match resolve (parseIP remoteAddr) ips with
  | .err _ => .reported .ipExtractorError
  | .panics m => .panicked m
  | .ok p r rest => .nextRan (parseIP remoteAddr) p r rest

/-! ## The Trusted View (src/request.go)

A Go http.Request is modelled by the fields the code reads or writes:
declared host, headers, whether the connection carries TLS, the URL and
the socket remote address string. The forwardedRequest struct holds a
pointer to the (mutable) raw request plus the partition and the five
memoization fields; Go's in-place cache writes become explicit state
passing — each accessor returns its value together with the updated
forwardedRequest. Mutating the raw request through its shared pointer is
modelled by replacing the raw field while keeping the caches. -/

structure URL where
  scheme : String
  host : String
  rest : String
deriving DecidableEq

structure RawRequest where
  host : String
  headers : Headers
  tls : Bool
  url : URL
  remoteAddr : String
deriving DecidableEq

/-- forwardedRequest (src/request.go). The Go zero values of the cache
fields — empty string, nil pointer — are modelled as "" and none. -/
structure ForwardedRequest where
  raw : RawRequest
  proxyIP : IP
  trustedRemoteAddr : IP
  trustedForwardedFor : List IP
  trustedHost : String
  trustedProto : String
  trustedURL : Option URL
  trustedRequest : Option RawRequest
deriving DecidableEq

/-- A forwardedRequest the way the middleware constructs it: the raw
request, the partition from the resolver, all caches at their zero
values. -/
def mkForwardedRequest (raw : RawRequest) (proxy trusted : IP)
    (rest : List IP) : ForwardedRequest :=
  { raw := raw
    proxyIP := proxy
    trustedRemoteAddr := trusted
    trustedForwardedFor := rest
    trustedHost := ("")
    trustedProto := ("")
    trustedURL := none
    trustedRequest := none }

/-- Mutation of the underlying raw request after the view exists (the Go
view holds a pointer to the request, so such writes are visible to it). -/
def setRaw (f : ForwardedRequest) (raw : RawRequest) : ForwardedRequest :=
  { f with raw := raw }

/-- forwardedRequest.GetTrustedHost (src/request.go): cached when the
cache string is non-empty; otherwise the original host when not behind a
proxy, else the X-Forwarded-Host value when non-empty, else the original
host; the computed value is written to the cache. -/
def GetTrustedHost (f : ForwardedRequest) : String × ForwardedRequest :=
  if f.trustedHost ≠ ("") then (f.trustedHost, f)
  else if f.proxyIP = [] then
    (f.raw.host, { f with trustedHost := f.raw.host })
  else
    let xHost := headerGet f.raw.headers.xfh
    if xHost ≠ ("") then (xHost, { f with trustedHost := xHost })
    else (f.raw.host, { f with trustedHost := f.raw.host })

/-- ASCII lowercasing, the effect of Go strings.ToLower on the header
values involved (all ASCII). -/
def toLowerStr (s : String) : String :=
  ⟨s.data.map Char.toLower⟩

/-- forwardedRequest.GetTrustedProto (src/request.go): cached when
non-empty; when not behind a proxy the TLS-based default; otherwise the
lowercased X-Forwarded-Proto value mapped http/ws to "http" and
https/wss to "https", with the TLS-based default for anything else. -/
def GetTrustedProto (f : ForwardedRequest) : String × ForwardedRequest :=
  if f.trustedProto ≠ ("") then (f.trustedProto, f)
  else if f.proxyIP = [] then
    let v : String := if f.raw.tls then ("https") else ("http")
    (v, { f with trustedProto := v })
  else
    let xProto := toLowerStr (headerGet f.raw.headers.xfp)
    if xProto = ("http") ∨ xProto = ("ws") then
      (("http"), { f with trustedProto := ("http") })
    else if xProto = ("https") ∨ xProto = ("wss") then
      (("https"), { f with trustedProto := ("https") })
    else
      let v : String := if f.raw.tls then ("https") else ("http")
      (v, { f with trustedProto := v })

/-- forwardedRequest.GetTrustedURL (src/request.go): cached when already
computed; otherwise a copy of the original URL with host and scheme
overwritten by the trusted host and protocol (the Go round trip through
url.Parse of the URL's own string is modelled as the copy it produces). -/
def GetTrustedURL (f : ForwardedRequest) : URL × ForwardedRequest :=
  match f.trustedURL with
  | some u => (u, f)
  | none =>
    let (h, f1) := GetTrustedHost f
    let (p, f2) := GetTrustedProto f1
    let u := { f.raw.url with host := h, scheme := p }
    (u, { f2 with trustedURL := some u })

/-- forwardedRequest.GetTrustedRequest (src/request.go): cached when
already computed; otherwise a clone of the original request with host,
URL and remote address overwritten from the trusted view, the
X-Forwarded-For header set to the first residual entry when the residual
chain is non-empty, and the three X-Forwarded-* headers deleted when it
is empty. -/
def GetTrustedRequest (f : ForwardedRequest) :
    RawRequest × ForwardedRequest :=
  match f.trustedRequest with
  | some r => (r, f)
  | none =>
    let base := f.raw
    let (h, f1) := GetTrustedHost f
    let (u, f2) := GetTrustedURL f1
    let hdr :=
      match f.trustedForwardedFor with
      | x :: _ => { base.headers with xff := [ipString x] }
      | [] => { base.headers with xff := [], xfh := [], xfp := [] }
    let req := { base with
                 host := h
                 url := u
                 remoteAddr := ipString f.trustedRemoteAddr
                 headers := hdr }
    (req, { f2 with trustedRequest := some req })

/-- forwardedRequest.BuildRequestForForward (src/request.go): clone the
request; set host and URL from the trusted view; delete the three
X-Forwarded-* headers and X-Real-IP; set X-Forwarded-For to the residual
chain (omitted when stripForwardedIPs) followed by the trusted remote,
comma-space joined; set X-Forwarded-Host and X-Forwarded-Proto from the
trusted view. -/
def BuildRequestForForward (f : ForwardedRequest)
    (stripForwardedIPs : Bool) : RawRequest × ForwardedRequest :=
  let base := f.raw
  let (h, f1) := GetTrustedHost f
  let (u, f2) := GetTrustedURL f1
  let ips : List String :=
    (if stripForwardedIPs then [] else f.trustedForwardedFor.map ipString)
      ++ [ipString f.trustedRemoteAddr]
  let (h2, f3) := GetTrustedHost f2
  let (p, f4) := GetTrustedProto f3
  let hdr := { base.headers with
               xff := [String.intercalate (", ") ips]
               xfh := [h2]
               xfp := [p]
               xrip := [] }
  ({ base with host := h, url := u, headers := hdr }, f4)

/-! ## Spec-side definitions for the whitelist resolver -/

/-- The whitelist resolution loop as the spec's words state it: walking
the chain from its rightmost end, while the candidate is contained in
some whitelisted prefix and entries remain, promote the candidate to
proxy and take the rightmost entry as the new candidate. The argument
list is the chain reversed (rightmost entry first), so the walk is
structural. -/
def specWhitelistWalk (c : CIDRWhitelist) (proxy cand : IP) :
    List IP → IP × IP × List IP
  | [] => (proxy, cand, [])
  | x :: rev =>
    if c.Contains cand then specWhitelistWalk c cand x rev
    else (proxy, cand, x :: rev)

/-- The whitelist resolver as the spec describes it: run the walk on the
reversed chain and restore the original order of the untouched part. -/
def specWhitelistResolve (c : CIDRWhitelist) (remote : IP)
    (fwd : List IP) : IP × IP × List IP :=
  match specWhitelistWalk c [] remote fwd.reverse with
  | (p, r, out) => (p, r, out.reverse)

def emptyWhitelist : CIDRWhitelist := ⟨[]⟩

/-! ## Spec-side and helper definitions for the Trusted View -/

/-- The value GetTrustedHost computes on a cache miss, as a pure function
of the raw request and the partition's proxy address. -/
def computeTrustedHost (raw : RawRequest) (proxyIP : IP) : String :=
  if proxyIP = [] then raw.host
  else if headerGet raw.headers.xfh ≠ ("") then headerGet raw.headers.xfh
  else raw.host

/-- The value GetTrustedProto computes on a cache miss, as a pure
function of the raw request and the partition's proxy address. -/
def computeTrustedProto (raw : RawRequest) (proxyIP : IP) : String :=
  if proxyIP = [] then (if raw.tls then ("https") else ("http"))
  else
    let xProto := toLowerStr (headerGet raw.headers.xfp)
    if xProto = ("http") ∨ xProto = ("ws") then ("http")
    else if xProto = ("https") ∨ xProto = ("wss") then ("https")
    else if raw.tls then ("https") else ("http")

/-- Modelled from the spec: the behind-a-proxy protocol mapping of
section 4.4 — the forwarded-protocol header value is lowercased; http
and ws map to "http", https and wss map to "https", and any other or
missing value falls back to the TLS-based default. -/
def specTrustedProto (xfpValue : String) (tls : Bool) : String :=
  let v := toLowerStr xfpValue
  if v = ("http") ∨ v = ("ws") then ("http")
  else if v = ("https") ∨ v = ("wss") then ("https")
  else if tls then ("https") else ("http")

/-- A raw request whose declared host is empty (Go http.Request.Host can
be empty): the input on which the trusted-host cache sentinel fails. -/
def rawHostless : RawRequest :=
  { host := ("")
    headers := emptyHeaders
    tls := false
    url := { scheme := ("http"), host := (""), rest := ("/") }
    remoteAddr := ("1.2.3.4:56789") }

def frHostless : ForwardedRequest :=
  mkForwardedRequest rawHostless [] [9, 9, 9, 9] []

/-- A raw request carrying X-Forwarded-Proto: wss, no TLS. -/
def rawWss : RawRequest :=
  { rawHostless with headers := { emptyHeaders with xfp := ["wss"] } }

/-- A raw request with a non-empty declared host. -/
def rawHosted : RawRequest :=
  { rawHostless with host := ("example.com") }

def frHosted : ForwardedRequest :=
  mkForwardedRequest rawHosted [] [1, 2, 3, 4] []

/-! ## Resolver lemmas -/

theorem resolveLoop_eq_walk (c : CIDRWhitelist) :
    ∀ (rev : List IP) (fuel : Nat) (proxy remote : IP),
      rev.length ≤ fuel →
      c.resolveLoop fuel proxy remote rev.reverse =
        (match specWhitelistWalk c proxy remote rev with
         | (p, r, out) => (p, r, out.reverse)) := by
  intro rev
  induction rev with
  | nil =>
    intro fuel proxy remote _
    cases fuel <;> simp [CIDRWhitelist.resolveLoop, specWhitelistWalk]
  | cons x rev' ih =>
    intro fuel proxy remote hlen
    match fuel with
    | 0 => simp at hlen
    | fuel' + 1 =>
      have hlen' : rev'.length ≤ fuel' := by
        simp only [List.length_cons] at hlen
        omega
      have hpop : pop (rev'.reverse ++ [x]) = (x, rev'.reverse) := by
        simp [pop, List.getLast?_concat, List.dropLast_concat]
      cases hc : c.Contains remote with
      | true =>
        have := ih fuel' remote x hlen'
        simp only [List.reverse_cons, CIDRWhitelist.resolveLoop,
          List.length_append, hpop, hc, specWhitelistWalk]
        simpa using this
      | false =>
        simp [List.reverse_cons, CIDRWhitelist.resolveLoop, hpop, hc,
          specWhitelistWalk]

theorem Resolve_eq_walk (c : CIDRWhitelist) (remote : IP)
    (fwd : List IP) :
    c.Resolve remote fwd =
      (match specWhitelistResolve c remote fwd with
       | (p, r, rest) => ResolveOutcome.ok p r rest) := by
  unfold CIDRWhitelist.Resolve specWhitelistResolve
  have h := resolveLoop_eq_walk c fwd.reverse fwd.length [] remote
    (by simp)
  rw [List.reverse_reverse] at h
  rw [h]

theorem walk_take (c : CIDRWhitelist) :
    ∀ (rev : List IP) (proxy cand p r : IP) (out : List IP),
      specWhitelistWalk c proxy cand rev = (p, r, out) →
      out.reverse ++ [r] =
        (rev.reverse ++ [cand]).take (out.reverse.length + 1) := by
  intro rev
  induction rev with
  | nil =>
    intro proxy cand p r out h
    simp only [specWhitelistWalk, Prod.mk.injEq] at h
    obtain ⟨_, h2, h3⟩ := h
    subst h2; subst h3
    simp
  | cons x rev' ih =>
    intro proxy cand p r out h
    simp only [specWhitelistWalk] at h
    cases hc : c.Contains cand with
    | true =>
      rw [hc, if_pos rfl] at h
      have hih := ih cand x p r out h
      have hlen : out.reverse.length + 1 ≤ (rev'.reverse ++ [x]).length := by
        have hl := congrArg List.length hih
        simp only [List.length_append, List.length_take,
          List.length_singleton] at hl
        simp only [List.length_append, List.length_singleton]
        exact min_eq_left_iff.mp hl.symm
      rw [List.reverse_cons, List.take_append_of_le_length hlen]
      exact hih
    | false =>
      rw [hc] at h
      simp only [Bool.false_eq_true, if_false, Prod.mk.injEq] at h
      obtain ⟨_, h2, h3⟩ := h
      subst h2; subst h3
      rw [show (x :: rev').reverse.length + 1 =
            ((x :: rev').reverse ++ [cand]).length by simp]
      rw [List.take_length]
theorem offset_resolve_eq (o : Nat) (remote : IP) (fwd : List IP)
    (h : o + 2 ≤ (fwd ++ [remote]).length) :
    OffsetIPExtractor.Resolve o remote fwd =
      .ok ((fwd ++ [remote]).get
            ⟨(fwd ++ [remote]).length - o - 1, by omega⟩)
          ((fwd ++ [remote]).get
            ⟨(fwd ++ [remote]).length - o - 2, by omega⟩)
          ((fwd ++ [remote]).take ((fwd ++ [remote]).length - o - 2)) := by
  simp only [OffsetIPExtractor.Resolve, goIndex]
  rw [if_neg (by omega)]
  rw [dif_pos (by constructor <;> omega)]
  rw [dif_pos (by constructor <;> omega)]
  have e1 : ((((fwd ++ [remote]).length : Int)) - o - 1).toNat =
      (fwd ++ [remote]).length - o - 1 := by omega
  have e2 : ((((fwd ++ [remote]).length : Int)) - o - 2).toNat =
      (fwd ++ [remote]).length - o - 2 := by omega
  simp only [e1, e2]

theorem offset_resolve_short (o : Nat) (remote : IP) (fwd : List IP) :
    ((fwd ++ [remote]).length ≤ o →
      OffsetIPExtractor.Resolve o remote fwd =
        .err ("mis-configured proxy chain")) ∧
    ((fwd ++ [remote]).length = o + 1 →
      OffsetIPExtractor.Resolve o remote fwd =
        .panics ("runtime error: index out of range")) := by
  constructor
  · intro h
    simp only [OffsetIPExtractor.Resolve]
    rw [if_pos (by omega)]
  · intro h
    simp only [OffsetIPExtractor.Resolve]
    rw [if_neg (by omega)]
    have h2 : goIndex (fwd ++ [remote])
        (((fwd ++ [remote]).length : Int) - o - 2) = none := by
      rw [goIndex, dif_neg (by omega)]
    rw [h2]
    rcases goIndex (fwd ++ [remote])
        (((fwd ++ [remote]).length : Int) - o - 1) with _ | v <;> rfl

/-! ## Claim theorems: resolvers and middleware entry points -/

/-- C1 (code bug): for the Fixed-Offset resolver the claim says every
combined chain of size < N+2 yields the configuration error, but at the
boundary size = N+1 the guard size <= N does not fire and the code
evaluates ips[size-N-2] = ips[-1], a runtime panic, not the
configuration error; only size <= N yields the error. -/
theorem offset_short_chain_behavior :
    OffsetIPExtractor.Resolve 0 [9, 9, 9, 9] [] =
      .panics ("runtime error: index out of range") ∧
    OffsetIPExtractor.Resolve 1 [9, 9, 9, 9] [[5, 6, 7, 8]] =
      .panics ("runtime error: index out of range") ∧
    OffsetIPExtractor.Resolve 1 [9, 9, 9, 9] [] =
      .err ("mis-configured proxy chain") := by decide

/-- C2 counterexample: with the one-host whitelist 10.0.0.1/32, socket
peer 10.0.0.1 and forwarded chain [10.0.0.1, 5.5.5.5], Resolve promotes
the peer to proxy and stops at 5.5.5.5; the residual chain [10.0.0.1]
contains the returned proxy address by value, refuting the claim that
the residual chain never includes the proxy address. -/
theorem residual_contains_proxy_cex :
    CIDRWhitelist.Resolve ⟨[⟨[10, 0, 0, 1], [255, 255, 255, 255]⟩]⟩
      [10, 0, 0, 1] [[10, 0, 0, 1], [5, 5, 5, 5]] =
      .ok [10, 0, 0, 1] [5, 5, 5, 5] [[10, 0, 0, 1]] ∧
    [10, 0, 0, 1] ∈ [[10, 0, 0, 1]] := by decide

/-- C2 (amended): for both resolver variants, on a successful Resolve the
residual chain followed by the trusted remote address is an initial
segment of the combined chain forwarded ++ [remote]; the residual chain
therefore occupies positions strictly before the positions from which
the trusted remote and proxy addresses were taken. (The value-level
claim is false when the chain repeats an address, see the
counterexample.) -/
theorem residual_positional_disjoint (c : CIDRWhitelist) (o : Nat)
    (remote : IP) (fwd : List IP) (p r : IP) (rest : List IP)
    (p' r' : IP) (rest' : List IP) :
    (c.Resolve remote fwd = .ok p r rest →
      rest ++ [r] = (fwd ++ [remote]).take (rest.length + 1)) ∧
    (OffsetIPExtractor.Resolve o remote fwd = .ok p' r' rest' →
      rest' ++ [r'] = (fwd ++ [remote]).take (rest'.length + 1)) := by
  constructor
  · intro h
    rw [Resolve_eq_walk] at h
    unfold specWhitelistResolve at h
    rcases hw : specWhitelistWalk c [] remote fwd.reverse with ⟨pp, rr, out⟩
    rw [hw] at h
    injection h with h1 h2 h3
    subst h2; subst h3
    have := walk_take c fwd.reverse [] remote pp rr out hw
    rwa [List.reverse_reverse] at this
  · intro h
    by_cases hlen : o + 2 ≤ (fwd ++ [remote]).length
    · rw [offset_resolve_eq o remote fwd hlen] at h
      injection h with h1 h2 h3
      subst h2; subst h3
      have hidx : (fwd ++ [remote]).length - o - 2 <
          (fwd ++ [remote]).length := by omega
      have htc := List.take_concat_get (fwd ++ [remote])
        ((fwd ++ [remote]).length - o - 2) hidx
      rw [List.concat_eq_append] at htc
      have hrl : ((fwd ++ [remote]).take
          ((fwd ++ [remote]).length - o - 2)).length =
          (fwd ++ [remote]).length - o - 2 := by
        rw [List.length_take]
        omega
      rw [hrl]
      simp only [List.get_eq_getElem]
      exact htc
    · rcases Nat.lt_or_ge (fwd ++ [remote]).length (o + 1) with hlt | hge
      · rw [(offset_resolve_short o remote fwd).1 (by omega)] at h
        exact absurd h (by simp)
      · rw [(offset_resolve_short o remote fwd).2 (by omega)] at h
        exact absurd h (by simp)

theorem residual_positional_disjoint_witness :
    ([[1, 2, 3, 4]] : List IP) ++ [[9, 9, 9, 9]] =
      (([[1, 2, 3, 4]] : List IP) ++ [[9, 9, 9, 9]]).take 2 :=
  (residual_positional_disjoint emptyWhitelist 0 [9, 9, 9, 9]
      [[1, 2, 3, 4]] [] [9, 9, 9, 9] [[1, 2, 3, 4]] [] [] []).1 (by decide)

/-- C3 (code bug): the claim (and spec section 4.1) says each
comma-separated token is trimmed before parsing, so that " 5.6.7.8"
after a comma-space separator is included; the source never trims, Go
net.ParseIP rejects a token with a leading space, and the token is
silently dropped. On the standard comma-space header form the code
returns only the first address, where the spec-modelled trimming
extractor returns both. -/
theorem extract_does_not_trim :
    ExtractForwardedForIPs
      { emptyHeaders with xff := ["1.2.3.4, 5.6.7.8"] } =
      [[1, 2, 3, 4]] ∧
    specExtractForwardedForIPs
      { emptyHeaders with xff := ["1.2.3.4, 5.6.7.8"] } =
      [[1, 2, 3, 4], [5, 6, 7, 8]] := by decide

/-- C4 counterexample: the WithTrustedProxyContext entry point
(src/trustedproxy.go) parses the socket remote address with plain
net.ParseIP; on the host:port string every server supplies this yields
the nil IP, which is passed silently to the resolver and the next
handler still runs — no error is reported, refuting the claim for this
entry point. -/
theorem withTrustedProxyContext_passes_nil :
    WithTrustedProxyContext emptyWhitelist.Resolve ("1.2.3.4:56789")
      emptyHeaders = .nextRan [] [] [] [] := by decide

/-- C4 (amended): an unparseable socket address is fatal only in the
HTTPHandler.SetTrustedProxyContext entry point (src/http.go): when
net.ResolveTCPAddr fails, ErrTypeUnknownRemoteAddr is reported before
the next handler can run, and whenever the next handler runs the
resolver was given exactly the address ResolveTCPAddr produced. But
neither entry point guarantees a non-nil remote to the resolver: the
WithTrustedProxyContext entry point of src/trustedproxy.go passes nil
for every host:port remote string (see the counterexample), and even
SetTrustedProxyContext passes nil and runs the handler for an
empty-host remote string such as ":8080", because Go's ResolveTCPAddr
succeeds there with a nil IP. -/
theorem setTrustedProxyContext_fatal_on_bad_remote
    (resolve : IP → List IP → ResolveOutcome) (remoteAddr : String)
    (hdr : Headers) :
    (resolveTCPAddr remoteAddr = none →
      SetTrustedProxyContext resolve remoteAddr hdr =
        .reported .unknownRemoteAddr) ∧
    (∀ g p r rest,
      SetTrustedProxyContext resolve remoteAddr hdr =
        .nextRan g p r rest →
      resolveTCPAddr remoteAddr = some g) ∧
    (resolveTCPAddr (":8080") = some [] ∧
      SetTrustedProxyContext emptyWhitelist.Resolve (":8080")
        emptyHeaders = .nextRan [] [] [] []) := by
  refine ⟨?_, ?_, by decide⟩
  · intro h
    simp only [SetTrustedProxyContext, h]
  · intro g p r rest h
    simp only [SetTrustedProxyContext] at h
    split at h
    · exact absurd h (by simp)
    · rename_i ipv hra
      split at h
      · exact absurd h (by simp)
      · exact absurd h (by simp)
      · rename_i p0 r0 rest0 hr
        injection h with h1 h2 h3 h4
        subst h1
        exact hra

theorem setTrustedProxyContext_fatal_witness :
    SetTrustedProxyContext emptyWhitelist.Resolve ("nope") emptyHeaders =
      .reported .unknownRemoteAddr :=
  (setTrustedProxyContext_fatal_on_bad_remote emptyWhitelist.Resolve
      ("nope") emptyHeaders).1 (by decide)

/-- C6: CIDRWhitelist.Resolve performs exactly the loop the spec
describes — starting with the socket peer as candidate, while the
candidate is contained in some whitelisted prefix and the chain is
non-empty, promote the candidate to proxy and pop the rightmost chain
entry as the new candidate; the final candidate is the trusted remote,
the remaining prefix of the chain is the residual, and no error is ever
returned. In particular, when the peer is in no whitelisted prefix the
proxy is absent (nil), the trusted remote equals the peer and the chain
is returned unchanged. -/
theorem cidr_resolve_spec_loop (c : CIDRWhitelist) (remote : IP)
    (fwd : List IP) :
    (c.Resolve remote fwd =
      (match specWhitelistResolve c remote fwd with
       | (p, r, rest) => ResolveOutcome.ok p r rest)) ∧
    (c.Contains remote = false →
      c.Resolve remote fwd = .ok [] remote fwd) := by
  constructor
  · exact Resolve_eq_walk c remote fwd
  · intro hc
    cases fwd with
    | nil => simp [CIDRWhitelist.Resolve, CIDRWhitelist.resolveLoop]
    | cons y ys =>
      simp [CIDRWhitelist.Resolve, CIDRWhitelist.resolveLoop, hc]

theorem cidr_resolve_spec_loop_witness :
    CIDRWhitelist.Resolve emptyWhitelist [9, 9, 9, 9] [[1, 2, 3, 4]] =
      .ok [] [9, 9, 9, 9] [[1, 2, 3, 4]] :=
  (cidr_resolve_spec_loop emptyWhitelist [9, 9, 9, 9]
      [[1, 2, 3, 4]]).2 (by decide)

/-- C7: for the Fixed-Offset resolver with offset N, whenever the
combined chain forwarded ++ [remote] has size at least N+2, Resolve
returns the element at index size-N-1 as proxy, the element at index
size-N-2 as trusted remote, and everything before index size-N-2 as the
residual chain. -/
theorem offset_resolve_partition (o : Nat) (remote : IP)
    (fwd : List IP) (h : o + 2 ≤ (fwd ++ [remote]).length) :
    OffsetIPExtractor.Resolve o remote fwd =
      .ok ((fwd ++ [remote]).get
            ⟨(fwd ++ [remote]).length - o - 1, by omega⟩)
          ((fwd ++ [remote]).get
            ⟨(fwd ++ [remote]).length - o - 2, by omega⟩)
          ((fwd ++ [remote]).take ((fwd ++ [remote]).length - o - 2)) :=
  offset_resolve_eq o remote fwd h

theorem offset_resolve_partition_witness :
    OffsetIPExtractor.Resolve 0 [30] [[10], [20]] =
      .ok [30] [20] [[10]] :=
  (offset_resolve_partition 0 [30] [[10], [20]] (by decide)).trans
    (by decide)

/-! ## Trusted View lemmas -/

theorem getTrustedHost_uncached (f : ForwardedRequest)
    (h : f.trustedHost = ("")) :
    GetTrustedHost f = (computeTrustedHost f.raw f.proxyIP,
      { f with trustedHost := computeTrustedHost f.raw f.proxyIP }) := by
  unfold GetTrustedHost computeTrustedHost
  rw [h]
  rw [if_neg (by simp)]
  by_cases hp : f.proxyIP = []
  · simp [hp]
  · by_cases hx : headerGet f.raw.headers.xfh = ("")
    · simp [hp, hx]
    · simp [hp, hx]

theorem getTrustedHost_cached (f : ForwardedRequest)
    (h : f.trustedHost ≠ ("")) :
    GetTrustedHost f = (f.trustedHost, f) := by
  unfold GetTrustedHost
  rw [if_pos h]

theorem getTrustedProto_uncached (f : ForwardedRequest)
    (h : f.trustedProto = ("")) :
    GetTrustedProto f = (computeTrustedProto f.raw f.proxyIP,
      { f with trustedProto := computeTrustedProto f.raw f.proxyIP }) := by
  unfold GetTrustedProto computeTrustedProto
  rw [h]
  rw [if_neg (by simp)]
  by_cases hp : f.proxyIP = []
  · simp [hp]
  · by_cases h1 : toLowerStr (headerGet f.raw.headers.xfp) = ("http") ∨
        toLowerStr (headerGet f.raw.headers.xfp) = ("ws")
    · simp [hp, h1]
    · by_cases h2 : toLowerStr (headerGet f.raw.headers.xfp) = ("https") ∨
          toLowerStr (headerGet f.raw.headers.xfp) = ("wss")
      · simp [hp, h1, h2]
      · simp [hp, h1, h2]

theorem getTrustedProto_cached (f : ForwardedRequest)
    (h : f.trustedProto ≠ ("")) :
    GetTrustedProto f = (f.trustedProto, f) := by
  unfold GetTrustedProto
  rw [if_pos h]

theorem computeTrustedProto_ne_empty (raw : RawRequest) (p : IP) :
    computeTrustedProto raw p ≠ ("") := by
  simp only [computeTrustedProto]
  split
  · split <;> decide
  · split
    · decide
    · split
      · decide
      · split <;> decide

theorem getTrustedURL_sets_cache (f : ForwardedRequest) :
    ((GetTrustedURL f).2).trustedURL = some (GetTrustedURL f).1 := by
  unfold GetTrustedURL
  split
  · rename_i u hu
    exact hu
  · rcases hh : GetTrustedHost f with ⟨hv, f1⟩
    rcases hp : GetTrustedProto f1 with ⟨pv, f2⟩
    simp [hh, hp]

theorem getTrustedRequest_sets_cache (f : ForwardedRequest) :
    ((GetTrustedRequest f).2).trustedRequest =
      some (GetTrustedRequest f).1 := by
  unfold GetTrustedRequest
  split
  · rename_i r hr
    exact hr
  · rcases hh : GetTrustedHost f with ⟨hv, f1⟩
    rcases hu : GetTrustedURL f1 with ⟨uv, f2⟩
    simp [hh, hu]

theorem getTrustedHost_writes (f : ForwardedRequest) :
    ((GetTrustedHost f).2).trustedHost = (GetTrustedHost f).1 := by
  by_cases hc : f.trustedHost = ("")
  · rw [getTrustedHost_uncached f hc]
  · rw [getTrustedHost_cached f hc]

theorem getTrustedProto_writes (f : ForwardedRequest) :
    ((GetTrustedProto f).2).trustedProto = (GetTrustedProto f).1 := by
  by_cases hc : f.trustedProto = ("")
  · rw [getTrustedProto_uncached f hc]
  · rw [getTrustedProto_cached f hc]

theorem getTrustedProto_fst_ne_empty (f : ForwardedRequest) :
    (GetTrustedProto f).1 ≠ ("") := by
  by_cases hc : f.trustedProto = ("")
  · rw [getTrustedProto_uncached f hc]
    exact computeTrustedProto_ne_empty f.raw f.proxyIP
  · rw [getTrustedProto_cached f hc]
    exact hc

theorem getTrustedURL_cached (f : ForwardedRequest) (u : URL)
    (h : f.trustedURL = some u) : GetTrustedURL f = (u, f) := by
  unfold GetTrustedURL
  rw [h]

theorem getTrustedRequest_cached (f : ForwardedRequest) (r : RawRequest)
    (h : f.trustedRequest = some r) : GetTrustedRequest f = (r, f) := by
  unfold GetTrustedRequest
  rw [h]

theorem getTrustedHost_state (f : ForwardedRequest) :
    ((GetTrustedHost f).2).raw = f.raw ∧
    ((GetTrustedHost f).2).proxyIP = f.proxyIP ∧
    ((GetTrustedHost f).2).trustedRemoteAddr = f.trustedRemoteAddr ∧
    ((GetTrustedHost f).2).trustedForwardedFor = f.trustedForwardedFor ∧
    ((GetTrustedHost f).2).trustedHost = (GetTrustedHost f).1 ∧
    ((GetTrustedHost f).2).trustedProto = f.trustedProto ∧
    ((GetTrustedHost f).2).trustedURL = f.trustedURL ∧
    ((GetTrustedHost f).2).trustedRequest = f.trustedRequest := by
  by_cases hc : f.trustedHost = ("")
  · rw [getTrustedHost_uncached f hc]
    exact ⟨rfl, rfl, rfl, rfl, rfl, rfl, rfl, rfl⟩
  · rw [getTrustedHost_cached f hc]
    exact ⟨rfl, rfl, rfl, rfl, rfl, rfl, rfl, rfl⟩

theorem getTrustedProto_state (f : ForwardedRequest) :
    ((GetTrustedProto f).2).raw = f.raw ∧
    ((GetTrustedProto f).2).proxyIP = f.proxyIP ∧
    ((GetTrustedProto f).2).trustedRemoteAddr = f.trustedRemoteAddr ∧
    ((GetTrustedProto f).2).trustedForwardedFor = f.trustedForwardedFor ∧
    ((GetTrustedProto f).2).trustedHost = f.trustedHost ∧
    ((GetTrustedProto f).2).trustedProto = (GetTrustedProto f).1 ∧
    ((GetTrustedProto f).2).trustedURL = f.trustedURL ∧
    ((GetTrustedProto f).2).trustedRequest = f.trustedRequest := by
  by_cases hc : f.trustedProto = ("")
  · rw [getTrustedProto_uncached f hc]
    exact ⟨rfl, rfl, rfl, rfl, rfl, rfl, rfl, rfl⟩
  · rw [getTrustedProto_cached f hc]
    exact ⟨rfl, rfl, rfl, rfl, rfl, rfl, rfl, rfl⟩

theorem getTrustedHost_val_of_state (f g : ForwardedRequest)
    (h1 : g.trustedHost = f.trustedHost ∨
      g.trustedHost = (GetTrustedHost f).1)
    (h2 : g.raw = f.raw) (h3 : g.proxyIP = f.proxyIP) :
    (GetTrustedHost g).1 = (GetTrustedHost f).1 := by
  rcases h1 with h1 | h1
  · by_cases hc : f.trustedHost = ("")
    · rw [getTrustedHost_uncached f hc,
        getTrustedHost_uncached g (h1.trans hc), h2, h3]
    · rw [getTrustedHost_cached f hc,
        getTrustedHost_cached g (by rw [h1]; exact hc)]
      exact h1
  · by_cases hv : (GetTrustedHost f).1 = ("")
    · by_cases hc : f.trustedHost = ("")
      · rw [getTrustedHost_uncached f hc] at hv h1 ⊢
        rw [getTrustedHost_uncached g (h1.trans hv), h2, h3]
      · rw [getTrustedHost_cached f hc] at hv
        exact absurd hv hc
    · rw [getTrustedHost_cached g (by rw [h1]; exact hv)]
      exact h1

theorem getTrustedProto_val_of_state (f g : ForwardedRequest)
    (h1 : g.trustedProto = f.trustedProto ∨
      g.trustedProto = (GetTrustedProto f).1)
    (h2 : g.raw = f.raw) (h3 : g.proxyIP = f.proxyIP) :
    (GetTrustedProto g).1 = (GetTrustedProto f).1 := by
  rcases h1 with h1 | h1
  · by_cases hc : f.trustedProto = ("")
    · rw [getTrustedProto_uncached f hc,
        getTrustedProto_uncached g (h1.trans hc), h2, h3]
    · rw [getTrustedProto_cached f hc,
        getTrustedProto_cached g (by rw [h1]; exact hc)]
      exact h1
  · rw [getTrustedProto_cached g
      (by rw [h1]; exact getTrustedProto_fst_ne_empty f)]
    exact h1

theorem hostAfterHost (f : ForwardedRequest) :
    (GetTrustedHost ((GetTrustedHost f).2)).1 = (GetTrustedHost f).1 := by
  obtain ⟨hraw, hproxy, _, _, hhost, _, _, _⟩ := getTrustedHost_state f
  exact getTrustedHost_val_of_state f _ (Or.inr hhost) hraw hproxy

theorem protoAfterHost (f : ForwardedRequest) :
    (GetTrustedProto ((GetTrustedHost f).2)).1 =
      (GetTrustedProto f).1 := by
  obtain ⟨hraw, hproxy, _, _, _, hproto, _, _⟩ := getTrustedHost_state f
  exact getTrustedProto_val_of_state f _ (Or.inl hproto) hraw hproxy

theorem getTrustedURL_uncached (f : ForwardedRequest)
    (h : f.trustedURL = none) :
    GetTrustedURL f =
      ({ f.raw.url with
          host := (GetTrustedHost f).1
          scheme := (GetTrustedProto ((GetTrustedHost f).2)).1 },
       { (GetTrustedProto ((GetTrustedHost f).2)).2 with
          trustedURL := some { f.raw.url with
            host := (GetTrustedHost f).1
            scheme := (GetTrustedProto ((GetTrustedHost f).2)).1 } }) := by
  unfold GetTrustedURL
  rw [h]

theorem getTrustedURL_val_uncached (f : ForwardedRequest)
    (h : f.trustedURL = none) :
    (GetTrustedURL f).1 =
      { f.raw.url with
        host := (GetTrustedHost f).1
        scheme := (GetTrustedProto ((GetTrustedHost f).2)).1 } := by
  rw [getTrustedURL_uncached f h]

theorem getTrustedURL_state_facts (f : ForwardedRequest) :
    ((GetTrustedURL f).2).raw = f.raw ∧
    ((GetTrustedURL f).2).proxyIP = f.proxyIP ∧
    ((GetTrustedURL f).2).trustedRemoteAddr = f.trustedRemoteAddr ∧
    ((GetTrustedURL f).2).trustedForwardedFor = f.trustedForwardedFor ∧
    (((GetTrustedURL f).2).trustedHost = f.trustedHost ∨
      ((GetTrustedURL f).2).trustedHost = (GetTrustedHost f).1) ∧
    (((GetTrustedURL f).2).trustedProto = f.trustedProto ∨
      ((GetTrustedURL f).2).trustedProto = (GetTrustedProto f).1) := by
  by_cases hc : f.trustedURL = none
  · rw [getTrustedURL_uncached f hc]
    obtain ⟨h1raw, h1proxy, h1rem, h1fwd, h1host, h1proto, _, _⟩ :=
      getTrustedHost_state f
    obtain ⟨h2raw, h2proxy, h2rem, h2fwd, h2host, h2proto, _, _⟩ :=
      getTrustedProto_state ((GetTrustedHost f).2)
    refine ⟨?_, ?_, ?_, ?_, ?_, ?_⟩
    · exact h2raw.trans h1raw
    · exact h2proxy.trans h1proxy
    · exact h2rem.trans h1rem
    · exact h2fwd.trans h1fwd
    · exact Or.inr (h2host.trans h1host)
    · exact Or.inr (h2proto.trans (protoAfterHost f))
  · obtain ⟨u, hu⟩ : ∃ u, f.trustedURL = some u := by
      cases hfu : f.trustedURL
      · exact absurd hfu hc
      · exact ⟨_, rfl⟩
    rw [getTrustedURL_cached f u hu]
    exact ⟨rfl, rfl, rfl, rfl, Or.inl rfl, Or.inl rfl⟩

theorem getTrustedURL_val_of_state (f g : ForwardedRequest)
    (hurl : g.trustedURL = f.trustedURL)
    (hH : (GetTrustedHost g).1 = (GetTrustedHost f).1)
    (hP : (GetTrustedProto ((GetTrustedHost g).2)).1 =
      (GetTrustedProto ((GetTrustedHost f).2)).1)
    (hraw : g.raw = f.raw) :
    (GetTrustedURL g).1 = (GetTrustedURL f).1 := by
  by_cases hc : f.trustedURL = none
  · rw [getTrustedURL_val_uncached f hc,
      getTrustedURL_val_uncached g (hurl.trans hc), hH, hP, hraw]
  · obtain ⟨u, hu⟩ : ∃ u, f.trustedURL = some u := by
      cases hfu : f.trustedURL
      · exact absurd hfu hc
      · exact ⟨_, rfl⟩
    rw [getTrustedURL_cached f u hu, getTrustedURL_cached g u
      (hurl.trans hu)]

theorem urlAfterHost (f : ForwardedRequest) :
    (GetTrustedURL ((GetTrustedHost f).2)).1 = (GetTrustedURL f).1 := by
  obtain ⟨hraw, _, _, _, _, _, hurl, _⟩ := getTrustedHost_state f
  exact getTrustedURL_val_of_state f _ hurl (hostAfterHost f)
    (protoAfterHost ((GetTrustedHost f).2)) hraw

theorem hostAfterURL (f : ForwardedRequest) :
    (GetTrustedHost ((GetTrustedURL f).2)).1 = (GetTrustedHost f).1 := by
  obtain ⟨hraw, hproxy, _, _, hhost, _⟩ := getTrustedURL_state_facts f
  exact getTrustedHost_val_of_state f _ hhost hraw hproxy

theorem protoAfterURL (f : ForwardedRequest) :
    (GetTrustedProto ((GetTrustedURL f).2)).1 =
      (GetTrustedProto f).1 := by
  obtain ⟨hraw, hproxy, _, _, _, hproto⟩ := getTrustedURL_state_facts f
  exact getTrustedProto_val_of_state f _ hproto hraw hproxy

theorem getTrustedRequest_val_uncached (f : ForwardedRequest)
    (h : f.trustedRequest = none) :
    (GetTrustedRequest f).1 =
      { f.raw with
        host := (GetTrustedHost f).1
        url := (GetTrustedURL ((GetTrustedHost f).2)).1
        remoteAddr := ipString f.trustedRemoteAddr
        headers :=
          match f.trustedForwardedFor with
          | x :: _ => { f.raw.headers with xff := [ipString x] }
          | [] =>
            { f.raw.headers with xff := [], xfh := [], xfp := [] } } := by
  unfold GetTrustedRequest
  rw [h]

theorem getTrustedHost_stable (f : ForwardedRequest) (raw' : RawRequest)
    (h : (GetTrustedHost f).1 ≠ ("")) :
    (GetTrustedHost (setRaw (GetTrustedHost f).2 raw')).1 =
      (GetTrustedHost f).1 := by
  have hw := getTrustedHost_writes f
  have hne : (setRaw (GetTrustedHost f).2 raw').trustedHost ≠ ("") := by
    show ((GetTrustedHost f).2).trustedHost ≠ ("")
    rw [hw]
    exact h
  rw [getTrustedHost_cached _ hne]
  show ((GetTrustedHost f).2).trustedHost = (GetTrustedHost f).1
  exact hw

theorem getTrustedProto_stable (f : ForwardedRequest)
    (raw' : RawRequest) :
    (GetTrustedProto (setRaw (GetTrustedProto f).2 raw')).1 =
      (GetTrustedProto f).1 := by
  have hw := getTrustedProto_writes f
  have hne : (setRaw (GetTrustedProto f).2 raw').trustedProto ≠ ("") := by
    show ((GetTrustedProto f).2).trustedProto ≠ ("")
    rw [hw]
    exact getTrustedProto_fst_ne_empty f
  rw [getTrustedProto_cached _ hne]
  show ((GetTrustedProto f).2).trustedProto = (GetTrustedProto f).1
  exact hw

theorem getTrustedURL_stable (f : ForwardedRequest)
    (raw' : RawRequest) :
    (GetTrustedURL (setRaw (GetTrustedURL f).2 raw')).1 =
      (GetTrustedURL f).1 := by
  have h' : (setRaw (GetTrustedURL f).2 raw').trustedURL =
      some (GetTrustedURL f).1 := getTrustedURL_sets_cache f
  rw [getTrustedURL_cached _ _ h']

theorem getTrustedRequest_stable (f : ForwardedRequest)
    (raw' : RawRequest) :
    (GetTrustedRequest (setRaw (GetTrustedRequest f).2 raw')).1 =
      (GetTrustedRequest f).1 := by
  have h' : (setRaw (GetTrustedRequest f).2 raw').trustedRequest =
      some (GetTrustedRequest f).1 := getTrustedRequest_sets_cache f
  rw [getTrustedRequest_cached _ _ h']

/-! ## Claim theorems: the Trusted View -/

/-- C5 counterexample: the trusted-host cache uses the empty string as
its unset sentinel, so for a view whose computed trusted host is the
empty string (here: not behind a proxy, declared host empty) the value
is recomputed on every call; after GetTrustedHost has been called once,
mutating the underlying raw request's host changes what a second call
returns — from "" to "evil" — refuting the claim that a computed field
never changes. -/
theorem trustedHost_cache_sentinel_cex :
    (GetTrustedHost frHostless).1 = ("") ∧
    (GetTrustedHost (setRaw (GetTrustedHost frHostless).2
        { rawHostless with host := ("evil") })).1 = ("evil") := by decide

/-- C5 (amended): after an accessor of the Trusted View has been called
once, mutating the underlying raw request does not change the value a
second call returns — unconditionally for the trusted protocol, trusted
URL and trusted request (their caches hold a non-sentinel value after
one call), and for the trusted host provided the first call returned a
non-empty string; when the computed trusted host is the empty string
(the cache's unset sentinel, see the counterexample) memoization does
not engage and a later mutation is visible. -/
theorem accessors_memoized_amended (f : ForwardedRequest)
    (raw' : RawRequest) :
    ((GetTrustedHost f).1 ≠ ("") →
      (GetTrustedHost (setRaw (GetTrustedHost f).2 raw')).1 =
        (GetTrustedHost f).1) ∧
    ((GetTrustedProto (setRaw (GetTrustedProto f).2 raw')).1 =
      (GetTrustedProto f).1) ∧
    ((GetTrustedURL (setRaw (GetTrustedURL f).2 raw')).1 =
      (GetTrustedURL f).1) ∧
    ((GetTrustedRequest (setRaw (GetTrustedRequest f).2 raw')).1 =
      (GetTrustedRequest f).1) :=
  ⟨getTrustedHost_stable f raw', getTrustedProto_stable f raw',
   getTrustedURL_stable f raw', getTrustedRequest_stable f raw'⟩

theorem accessors_memoized_amended_witness :
    (GetTrustedHost (setRaw (GetTrustedHost frHosted).2 rawWss)).1 =
      (GetTrustedHost frHosted).1 :=
  (accessors_memoized_amended frHosted rawWss).1 (by decide)

/-- C8: for a Trusted View as the middleware constructs it, when behind
a trusted proxy (proxy address non-nil) the trusted protocol is the
X-Forwarded-Proto value mapped case-insensitively — http/ws to "http",
https/wss to "https", anything else (including a missing header) to the
TLS-based default — and when not behind a proxy it is the TLS-based
default directly. -/
theorem trustedProto_mapping (raw : RawRequest) (p trusted : IP)
    (rest : List IP) :
    (p ≠ [] →
      (GetTrustedProto (mkForwardedRequest raw p trusted rest)).1 =
        specTrustedProto (headerGet raw.headers.xfp) raw.tls) ∧
    (p = [] →
      (GetTrustedProto (mkForwardedRequest raw p trusted rest)).1 =
        (if raw.tls then ("https") else ("http"))) := by
  constructor
  · intro hp
    rw [getTrustedProto_uncached _ rfl]
    show computeTrustedProto raw p = _
    unfold computeTrustedProto specTrustedProto
    rw [if_neg hp]
  · intro hp
    rw [getTrustedProto_uncached _ rfl]
    show computeTrustedProto raw p = _
    unfold computeTrustedProto
    rw [if_pos hp]

theorem trustedProto_mapping_witness :
    (GetTrustedProto (mkForwardedRequest rawWss [10, 0, 0, 1]
        [1, 2, 3, 4] [])).1 = ("https") ∧
    (GetTrustedProto (mkForwardedRequest rawWss []
        [1, 2, 3, 4] [])).1 = ("http") := by
  constructor
  · exact ((trustedProto_mapping rawWss [10, 0, 0, 1] [1, 2, 3, 4]
      []).1 (by decide)).trans (by decide)
  · exact ((trustedProto_mapping rawWss [] [1, 2, 3, 4] []).2
      rfl).trans (by decide)

/-- C9: for a Trusted View as the middleware constructs it,
GetTrustedRequest returns a full copy of the original request whose
host and URL are the trusted host and trusted URL, whose remote address
is the trusted remote address's string form, and whose X-Forwarded-For
header holds exactly the first residual-chain entry when the residual
chain is non-empty; when it is empty the X-Forwarded-For,
X-Forwarded-Host and X-Forwarded-Proto headers are removed; all other
fields are copied unchanged. -/
theorem trustedRequest_construction (raw : RawRequest)
    (p trusted : IP) (rest : List IP) :
    (GetTrustedRequest (mkForwardedRequest raw p trusted rest)).1 =
      { raw with
        host := (GetTrustedHost (mkForwardedRequest raw p trusted rest)).1
        url := (GetTrustedURL (mkForwardedRequest raw p trusted rest)).1
        remoteAddr := ipString trusted
        headers :=
          match rest with
          | x :: _ => { raw.headers with xff := [ipString x] }
          | [] =>
            { raw.headers with xff := [], xfh := [], xfp := [] } } := by
  rw [getTrustedRequest_val_uncached _ rfl,
    urlAfterHost (mkForwardedRequest raw p trusted rest)]
  rfl

/-- C10: for a Trusted View as the middleware constructs it and either
value of the stripForwardedIPs flag, BuildRequestForForward returns a
clone whose X-Forwarded-For, X-Forwarded-Host, X-Forwarded-Proto and
X-Real-IP headers are replaced: X-Forwarded-For becomes the residual
chain (in order) followed by the trusted remote address, comma-space
joined, when the flag is false, and the trusted remote address alone
when it is true; X-Forwarded-Host and X-Forwarded-Proto are set to the
trusted host and trusted protocol, X-Real-IP is removed, and the host
and URL are set from the trusted view. -/
theorem buildRequestForForward_headers (raw : RawRequest)
    (p trusted : IP) (rest : List IP) (strip : Bool) :
    (BuildRequestForForward (mkForwardedRequest raw p trusted rest)
        strip).1 =
      { raw with
        host := (GetTrustedHost (mkForwardedRequest raw p trusted rest)).1
        url := (GetTrustedURL (mkForwardedRequest raw p trusted rest)).1
        headers := { raw.headers with
          xff := [String.intercalate (", ")
            ((if strip then [] else rest.map ipString) ++
              [ipString trusted])]
          xfh := [(GetTrustedHost (mkForwardedRequest raw p trusted
            rest)).1]
          xfp := [(GetTrustedProto (mkForwardedRequest raw p trusted
            rest)).1]
          xrip := [] } } := by
  unfold BuildRequestForForward
  rcases hh : GetTrustedHost (mkForwardedRequest raw p trusted rest)
    with ⟨hv, f1⟩
  rcases hu : GetTrustedURL f1 with ⟨uv, f2⟩
  rcases hh2 : GetTrustedHost f2 with ⟨hv2, f3⟩
  rcases hp : GetTrustedProto f3 with ⟨pv, f4⟩
  simp only [hh, hu, hh2, hp]
  have ef1 : f1 = (GetTrustedHost
      (mkForwardedRequest raw p trusted rest)).2 := by rw [hh]
  have ef2 : f2 = (GetTrustedURL f1).2 := by rw [hu]
  have ef3 : f3 = (GetTrustedHost f2).2 := by rw [hh2]
  have e1 : hv = (GetTrustedHost
      (mkForwardedRequest raw p trusted rest)).1 := by rw [hh]
  have e2 : uv = (GetTrustedURL
      (mkForwardedRequest raw p trusted rest)).1 := by
    rw [show uv = (GetTrustedURL f1).1 by rw [hu], ef1,
      urlAfterHost (mkForwardedRequest raw p trusted rest)]
  have e3 : hv2 = (GetTrustedHost
      (mkForwardedRequest raw p trusted rest)).1 := by
    rw [show hv2 = (GetTrustedHost f2).1 by rw [hh2], ef2,
      hostAfterURL f1, ef1,
      hostAfterHost (mkForwardedRequest raw p trusted rest)]
  have e4 : pv = (GetTrustedProto
      (mkForwardedRequest raw p trusted rest)).1 := by
    rw [show pv = (GetTrustedProto f3).1 by rw [hp], ef3,
      protoAfterHost f2, ef2, protoAfterURL f1, ef1,
      protoAfterHost (mkForwardedRequest raw p trusted rest)]
  rw [e1, e2, e3, e4]
  rfl

end TrustedProxy
